import Mathlib

/-!
Verification development for the value-representation and dynamic-dispatch
core of the `rust-starlark` repository.

The Rust sources embedded here:

* `src/starlark/src/values/layout/vtable.rs` — the dispatch table
  (`AValueVTable`), its two constructors (`new` and `new_black_hole`), and
  the type-erased handle surface (`AValueDyn`).
* `src/starlark/src/eval/runtime/profile/data.rs` — `ProfileData::gen` and
  `ProfileData::write`.
* `src/starlark/src/eval/fragment/call.rs` — `ArgsCompiledValue::one_pos`.

Modelling conventions:

* Rust raw payload pointers (`*const ()`) become `RawPayload := List Nat`,
  raw memory words reinterpreted by each concrete type's implementation;
  type erasure is a runtime type tag, as the spec's design notes suggest.
* A Rust panic is out-of-band of the return type, so every dispatch-table
  functions return `RtResult`: either `.ok` or `.panic`.  Recoverable
  (`anyhow::Result`) failures are `Except String` INSIDE the `.ok` payload.
* A generic concrete type `T : AValue<'v>` becomes a record `AValueImpl`
  bundling its `StarlarkValue` implementation and the `AValue`-level hooks.
  The per-type implementations themselves live outside the sampled sources,
  so the record's operation fields are abstract functions; the spec's
  alignment invariant on `memory_size_for_extra_len` is carried as a proof
  field (see `AValueImpl.msize_aligned`).
* Opaque collaborator state (heaps, freezer, tracer, evaluator) is a `Nat`
  token: none of the verified code inspects it.
-/

set_option autoImplicit false

namespace StarlarkVTable

/-- Runtime type identifier (`std::any::TypeId` / `ConstTypeId`). -/
abbrev TypeId := Nat

/-- Raw, type-erased payload memory (`*const ()` target). -/
abbrev RawPayload := List Nat

/-- `StarlarkHashValue`. -/
abbrev StarHash := Nat

/-- Opaque `&Heap` token. -/
abbrev HeapTok := Nat

/-- Opaque `&Freezer` token. -/
abbrev FreezerTok := Nat

/-- Opaque `&Tracer` token. -/
abbrev TracerTok := Nat

/-- Opaque `&Arguments` token. -/
abbrev ArgsTok := Nat

/-- Opaque `&mut Evaluator` token. -/
abbrev EvalTok := Nat

/-- Result of running a Rust function that may panic: the panic is
out-of-band of the declared return type. -/
inductive RtResult (α : Type) where
  | panic (msg : String)
  | ok (a : α)
deriving DecidableEq, Repr

/-- Recoverable `anyhow::Result` errors. -/
abbrev Anyhow (α : Type) := Except String α

/-- Whether a run ended in a panic. -/
def RtResult.isPanic {α : Type} : RtResult α → Bool
  | .panic _ => true
  | .ok _ => false

/-- A Starlark `Value` as seen through type erasure: a runtime type tag
plus the raw payload (the spec's "tagged/boxed value" strategy). -/
structure StarValueRef where
  tid : TypeId
  payload : RawPayload
deriving DecidableEq, Repr

/-- A `FrozenValue`: same shape, pointing into the frozen heap. -/
abbrev FrozenValueRef := StarValueRef

/-- View of a `&dyn Allocative` trait object: all the verified code reads
from it is `allocative::size_of_unique_allocated_data`. -/
structure AllocativeDyn where
  uniqueAllocated : Nat
deriving DecidableEq, Repr

/-- The external crate function `allocative::size_of_unique_allocated_data`
applied to a trait object view. -/
def size_of_unique_allocated_data (a : AllocativeDyn) : Nat :=
  a.uniqueAllocated

/-- Implementation of the `StarlarkValue` trait supplied by one concrete
type (`T::StarlarkValue`).  The concrete implementations live outside the
sampled sources, so the fields are abstract functions with the same shapes
as the trait methods used by `AValueDyn`. -/
structure StarlarkValueImpl where
  TYPE : String
  staticTypeId : TypeId
  get_attr : RawPayload → String → HeapTok → Option StarValueRef
  has_attr : RawPayload → String → HeapTok → Bool
  set_attr : RawPayload → String → StarValueRef → Anyhow Unit
  atOp : RawPayload → StarValueRef → HeapTok → Anyhow StarValueRef
  set_at : RawPayload → StarValueRef → StarValueRef → Anyhow Unit
  is_in : RawPayload → StarValueRef → Anyhow Bool
  iterate : RawPayload → HeapTok → Anyhow (List StarValueRef)
  to_bool : RawPayload → Bool
  to_int : RawPayload → Anyhow Int
  length : RawPayload → Anyhow Int
  add : RawPayload → StarValueRef → HeapTok → Option (Anyhow StarValueRef)
  mul : RawPayload → StarValueRef → HeapTok → Anyhow StarValueRef
  equals : RawPayload → StarValueRef → Anyhow Bool
  compare : RawPayload → StarValueRef → Anyhow Ordering
  write_hash : RawPayload → Nat → Anyhow Nat
  invoke : RawPayload → StarValueRef → ArgsTok → EvalTok → Anyhow StarValueRef
  matches_type : RawPayload → String → Bool
  displayStr : RawPayload → String
  debugStr : RawPayload → String
  serializeStr : RawPayload → String
  allocativeUnique : RawPayload → Nat

/-- Modelled from the spec: the `StarlarkValueVTable` struct (declared in
`values/traits.rs`, not under `src/`) — the per-type table of value
operations reached from `AValueVTable.starlark_value`.  Every entry takes
the untyped payload first and may panic. -/
structure StarlarkValueVTable where
  get_attr : RawPayload → String → HeapTok → RtResult (Option StarValueRef)
  has_attr : RawPayload → String → HeapTok → RtResult Bool
  set_attr : RawPayload → String → StarValueRef → RtResult (Anyhow Unit)
  atOp : RawPayload → StarValueRef → HeapTok → RtResult (Anyhow StarValueRef)
  set_at : RawPayload → StarValueRef → StarValueRef → RtResult (Anyhow Unit)
  is_in : RawPayload → StarValueRef → RtResult (Anyhow Bool)
  iterate : RawPayload → HeapTok → RtResult (Anyhow (List StarValueRef))
  to_bool : RawPayload → RtResult Bool
  to_int : RawPayload → RtResult (Anyhow Int)
  length : RawPayload → RtResult (Anyhow Int)
  add : RawPayload → StarValueRef → HeapTok → RtResult (Option (Anyhow StarValueRef))
  mul : RawPayload → StarValueRef → HeapTok → RtResult (Anyhow StarValueRef)
  equals : RawPayload → StarValueRef → RtResult (Anyhow Bool)
  compare : RawPayload → StarValueRef → RtResult (Anyhow Ordering)
  write_hash : RawPayload → Nat → RtResult (Anyhow Nat)
  invoke : RawPayload → StarValueRef → ArgsTok → EvalTok → RtResult (Anyhow StarValueRef)
  matches_type : RawPayload → String → RtResult Bool

/-- Modelled from the spec: `StarlarkValueVTableGet::<T::StarlarkValue>::VTABLE`
(in `values/traits.rs`, not under `src/`) — each entry is resolved once, at
construction time, to `S`'s concrete implementation; none of them panics by
itself. -/
def StarlarkValueVTableGet (S : StarlarkValueImpl) : StarlarkValueVTable where
  get_attr := fun p n h => .ok (S.get_attr p n h)
  has_attr := fun p n h => .ok (S.has_attr p n h)
  set_attr := fun p n v => .ok (S.set_attr p n v)
  atOp := fun p i h => .ok (S.atOp p i h)
  set_at := fun p i v => .ok (S.set_at p i v)
  is_in := fun p v => .ok (S.is_in p v)
  iterate := fun p h => .ok (S.iterate p h)
  to_bool := fun p => .ok (S.to_bool p)
  to_int := fun p => .ok (S.to_int p)
  length := fun p => .ok (S.length p)
  add := fun p v h => .ok (S.add p v h)
  mul := fun p v h => .ok (S.mul p v h)
  equals := fun p v => .ok (S.equals p v)
  compare := fun p v => .ok (S.compare p v)
  write_hash := fun p h => .ok (S.write_hash p h)
  invoke := fun p me a e => .ok (S.invoke p me a e)
  matches_type := fun p t => .ok (S.matches_type p t)

/-- Modelled from the spec: `StarlarkValueVTable::BLACK_HOLE` (declared in
`values/traits.rs`, not under `src/`): per §4.1 every value operation of the
Tombstone table "panics unconditionally — this is a programming-error
guard". -/
def StarlarkValueVTable.BLACK_HOLE : StarlarkValueVTable where
  get_attr := fun _ _ _ => .panic "BlackHole"
  has_attr := fun _ _ _ => .panic "BlackHole"
  set_attr := fun _ _ _ => .panic "BlackHole"
  atOp := fun _ _ _ => .panic "BlackHole"
  set_at := fun _ _ _ => .panic "BlackHole"
  is_in := fun _ _ => .panic "BlackHole"
  iterate := fun _ _ => .panic "BlackHole"
  to_bool := fun _ => .panic "BlackHole"
  to_int := fun _ => .panic "BlackHole"
  length := fun _ => .panic "BlackHole"
  add := fun _ _ _ => .panic "BlackHole"
  mul := fun _ _ _ => .panic "BlackHole"
  equals := fun _ _ => .panic "BlackHole"
  compare := fun _ _ => .panic "BlackHole"
  write_hash := fun _ _ => .panic "BlackHole"
  invoke := fun _ _ _ _ => .panic "BlackHole"
  matches_type := fun _ _ => .panic "BlackHole"

namespace AValueHeader

/-- Alignment unit of the heap (`AValueHeader::ALIGN`, one machine word). -/
def ALIGN : Nat := 8

/-- Size of the object header (`mem::size_of::<AValueHeader>()`, one
vtable pointer). -/
def size : Nat := 8

end AValueHeader

/-- Implementation bundle for one concrete type `T : AValue<'v>`.
`starlark_value` is `T::StarlarkValue`; the remaining fields are the
`AValue`-level constants and hooks used by `AValueVTable::new::<T>`.
`msize_aligned` is the spec's §3 invariant ("every cell's total size is a
multiple of the heap's alignment unit"), modelled from the spec because the
concrete `AValue` implementations (`values/layout/avalue.rs`) are not under
`src/`. -/
structure AValueImpl where
  starlark_value : StarlarkValueImpl
  IS_STR : Bool
  extra_len : RawPayload → Nat
  memory_size_for_extra_len : Nat → Nat
  msize_aligned : ∀ n, memory_size_for_extra_len n % AValueHeader.ALIGN = 0
  get_hash : RawPayload → Anyhow StarHash
  heap_freeze : RawPayload → FreezerTok → Anyhow FrozenValueRef
  heap_copy : RawPayload → TracerTok → StarValueRef

/-- The payload of the Tombstone type `BlackHole(usize)`: a single word
recording the replaced cell's memory size. -/
def BlackHole.of (size : Nat) : RawPayload := [size]

/-- The type id the Tombstone table reports
(`GetTypeId::<BlackHole>::TYPE_ID`). -/
def blackHoleTypeId : TypeId := 0

/-- The dispatch table: one static instance per concrete value type
(`AValueVTable` in `vtable.rs`). -/
structure AValueVTable where
  static_type_of_value : TypeId
  type_name : String
  get_hash : RawPayload → RtResult (Anyhow StarHash)
  type_as_allocative_key : String
  starlark_value : StarlarkValueVTable
  drop_in_place : RawPayload → RtResult Unit
  is_str : Bool
  memory_size : RawPayload → RtResult Nat
  heap_freeze : RawPayload → FreezerTok → RtResult (Anyhow FrozenValueRef)
  heap_copy : RawPayload → TracerTok → RtResult StarValueRef
  display : RawPayload → RtResult String
  debug : RawPayload → RtResult String
  erased_serde_serialize : RawPayload → RtResult String
  allocative : RawPayload → RtResult AllocativeDyn

/-- `AValueVTable::new_black_hole` (`vtable.rs` lines 120-153): the fixed
Tombstone table.  `memory_size` reads the recorded word of the `BlackHole`
payload; `heap_freeze`, `heap_copy` and `get_hash` panic; the destructor is
a no-op; the display/debug/serialize/allocative accessors succeed. -/
def AValueVTable.new_black_hole : AValueVTable where
  drop_in_place := fun _ => .ok ()
  is_str := false
  memory_size := fun p => .ok (p.headD 0)
  static_type_of_value := blackHoleTypeId
  heap_freeze := fun _ _ => .panic "BlackHole"
  heap_copy := fun _ _ => .panic "BlackHole"
  get_hash := fun _ => .panic "BlackHole"
  type_name := "BlackHole"
  type_as_allocative_key := "BlackHole"
  display := fun _ => .ok "BlackHole"
  debug := fun _ => .ok "BlackHole"
  erased_serde_serialize := fun _ => .ok "BlackHole"
  allocative := fun _ => .ok ⟨0⟩
  starlark_value := StarlarkValueVTable.BLACK_HOLE

/-- `AValueVTable::new::<T>` (`vtable.rs` lines 155-208): build the table
for a concrete type `T`, each entry resolved once to `T`'s implementation. -/
def AValueVTable.new (T : AValueImpl) : AValueVTable where
  drop_in_place := fun _ => .ok ()
  is_str := T.IS_STR
  memory_size := fun p => .ok (T.memory_size_for_extra_len (T.extra_len p))
  heap_freeze := fun p fz => .ok (T.heap_freeze p fz)
  heap_copy := fun p tr => .ok (T.heap_copy p tr)
  static_type_of_value := T.starlark_value.staticTypeId
  get_hash := fun p => .ok (T.get_hash p)
  type_name := T.starlark_value.TYPE
  type_as_allocative_key := T.starlark_value.TYPE
  display := fun p => .ok (T.starlark_value.displayStr p)
  debug := fun p => .ok (T.starlark_value.debugStr p)
  erased_serde_serialize := fun p => .ok (T.starlark_value.serializeStr p)
  allocative := fun p => .ok ⟨T.starlark_value.allocativeUnique p⟩
  starlark_value := StarlarkValueVTableGet T.starlark_value

/-- The type-erased handle `AValueDyn<'v>`: payload reference plus static
dispatch-table reference. -/
structure AValueDyn where
  value : RawPayload
  vtable : AValueVTable

namespace AValueDyn

/-- `AValueDyn::memory_size`, including its
`debug_assert!(size % AValueHeader::ALIGN == 0)`. -/
def memory_size (h : AValueDyn) : RtResult Nat :=
  match h.vtable.memory_size h.value with
  | .panic m => .panic m
  | .ok size =>
      if size % AValueHeader.ALIGN = 0 then .ok size
      else .panic "debug_assert failed"

/-- `AValueDyn::as_allocative`. -/
def as_allocative (h : AValueDyn) : RtResult AllocativeDyn :=
  h.vtable.allocative h.value

/-- `AValueDyn::total_memory`: header size plus payload size plus the
externally accounted unique allocations. -/
def total_memory (h : AValueDyn) : RtResult Nat :=
  match h.memory_size with
  | .panic m => .panic m
  | .ok sz =>
      match h.as_allocative with
      | .panic m => .panic m
      | .ok av => .ok (AValueHeader.size + sz + size_of_unique_allocated_data av)

/-- `AValueDyn::get_type`. -/
def get_type (h : AValueDyn) : String := h.vtable.type_name

/-- `AValueDyn::static_type_of_value`. -/
def static_type_of_value (h : AValueDyn) : TypeId :=
  h.vtable.static_type_of_value

/-- `AValueDyn::is_str`. -/
def is_str (h : AValueDyn) : Bool := h.vtable.is_str

/-- `AValueDyn::heap_freeze`. -/
def heap_freeze (h : AValueDyn) (freezer : FreezerTok) :
    RtResult (Anyhow FrozenValueRef) :=
  h.vtable.heap_freeze h.value freezer

/-- `AValueDyn::heap_copy`. -/
def heap_copy (h : AValueDyn) (tracer : TracerTok) : RtResult StarValueRef :=
  h.vtable.heap_copy h.value tracer

/-- `AValueDyn::get_hash`. -/
def get_hash (h : AValueDyn) : RtResult (Anyhow StarHash) :=
  h.vtable.get_hash h.value

/-- `AValueDyn::drop_in_place` (the destructor entry, via
`AValueVTable::drop_in_place`). -/
def drop_in_place (h : AValueDyn) : RtResult Unit :=
  h.vtable.drop_in_place h.value

/-- `AValueDyn::get_attr`. -/
def get_attr (h : AValueDyn) (name : String) (heap : HeapTok) :
    RtResult (Option StarValueRef) :=
  h.vtable.starlark_value.get_attr h.value name heap

/-- `AValueDyn::has_attr`. -/
def has_attr (h : AValueDyn) (name : String) (heap : HeapTok) : RtResult Bool :=
  h.vtable.starlark_value.has_attr h.value name heap

/-- `AValueDyn::set_attr`. -/
def set_attr (h : AValueDyn) (attrName : String) (new_value : StarValueRef) :
    RtResult (Anyhow Unit) :=
  h.vtable.starlark_value.set_attr h.value attrName new_value

/-- `AValueDyn::at` (named `atOp` because `at` is a Lean keyword). -/
def atOp (h : AValueDyn) (index : StarValueRef) (heap : HeapTok) :
    RtResult (Anyhow StarValueRef) :=
  h.vtable.starlark_value.atOp h.value index heap

/-- `AValueDyn::set_at`. -/
def set_at (h : AValueDyn) (index new_value : StarValueRef) :
    RtResult (Anyhow Unit) :=
  h.vtable.starlark_value.set_at h.value index new_value

/-- `AValueDyn::is_in`. -/
def is_in (h : AValueDyn) (collection : StarValueRef) : RtResult (Anyhow Bool) :=
  h.vtable.starlark_value.is_in h.value collection

/-- `AValueDyn::iterate`. -/
def iterate (h : AValueDyn) (heap : HeapTok) :
    RtResult (Anyhow (List StarValueRef)) :=
  h.vtable.starlark_value.iterate h.value heap

/-- `AValueDyn::to_bool`. -/
def to_bool (h : AValueDyn) : RtResult Bool :=
  h.vtable.starlark_value.to_bool h.value

/-- `AValueDyn::to_int`. -/
def to_int (h : AValueDyn) : RtResult (Anyhow Int) :=
  h.vtable.starlark_value.to_int h.value

/-- `AValueDyn::length`. -/
def length (h : AValueDyn) : RtResult (Anyhow Int) :=
  h.vtable.starlark_value.length h.value

/-- `AValueDyn::add`. -/
def add (h : AValueDyn) (other : StarValueRef) (heap : HeapTok) :
    RtResult (Option (Anyhow StarValueRef)) :=
  h.vtable.starlark_value.add h.value other heap

/-- `AValueDyn::mul`. -/
def mul (h : AValueDyn) (other : StarValueRef) (heap : HeapTok) :
    RtResult (Anyhow StarValueRef) :=
  h.vtable.starlark_value.mul h.value other heap

/-- `AValueDyn::equals`. -/
def equals (h : AValueDyn) (other : StarValueRef) : RtResult (Anyhow Bool) :=
  h.vtable.starlark_value.equals h.value other

/-- `AValueDyn::compare`. -/
def compare (h : AValueDyn) (other : StarValueRef) : RtResult (Anyhow Ordering) :=
  h.vtable.starlark_value.compare h.value other

/-- `AValueDyn::write_hash`. -/
def write_hash (h : AValueDyn) (hasher : Nat) : RtResult (Anyhow Nat) :=
  h.vtable.starlark_value.write_hash h.value hasher

/-- `AValueDyn::invoke`. -/
def invoke (h : AValueDyn) (me : StarValueRef) (args : ArgsTok)
    (eval : EvalTok) : RtResult (Anyhow StarValueRef) :=
  h.vtable.starlark_value.invoke h.value me args eval

/-- `AValueDyn::matches_type`. -/
def matches_type (h : AValueDyn) (t : String) : RtResult Bool :=
  h.vtable.starlark_value.matches_type h.value t

/-- `AValueDyn::as_display`. -/
def as_display (h : AValueDyn) : RtResult String :=
  h.vtable.display h.value

/-- `AValueDyn::as_debug`. -/
def as_debug (h : AValueDyn) : RtResult String :=
  h.vtable.debug h.value

/-- `AValueDyn::as_serialize`. -/
def as_serialize (h : AValueDyn) : RtResult String :=
  h.vtable.erased_serde_serialize h.value

/-- `AValueDyn::downcast_ref::<T>` for `T = S`: succeed exactly when the
handle's static type identifier equals `S`'s, and then hand back the
payload under `S`'s typed view. -/
def downcast_ref (h : AValueDyn) (S : StarlarkValueImpl) : Option RawPayload :=
  if h.static_type_of_value = S.staticTypeId then some h.value else none

end AValueDyn

/-- The payload size a live cell of type `T` reports. -/
def cellPayloadSize (T : AValueImpl) (p : RawPayload) : Nat :=
  T.memory_size_for_extra_len (T.extra_len p)

/-- Modelled from the spec (§4.3/§4.4): once a cell of type `T` with
payload `p` has been migrated, its memory is overwritten with a
`BlackHole` sized to the original payload, dispatching through the
Tombstone table. -/
def migrate (T : AValueImpl) (p : RawPayload) : AValueDyn :=
  ⟨BlackHole.of (cellPayloadSize T p), AValueVTable.new_black_hole⟩

/-- Classification of the outcome of one dispatched operation, separating
the spec's two error classes (§7): a fatal panic versus a recoverable
value-operation error. -/
inductive OpOutcome (α : Type) where
  | fatalPanic (msg : String)
  | recoverable (err : String)
  | value (a : α)
deriving DecidableEq, Repr

/-- Whether an outcome is a recoverable value-operation error. -/
def OpOutcome.isRecoverable {α : Type} : OpOutcome α → Bool
  | .recoverable _ => true
  | _ => false

/-- Outcome of a `heap_freeze` dispatch: the returned `anyhow::Result` can
carry a recoverable failure, and the run can also panic. -/
def freezeOutcome {α : Type} : RtResult (Anyhow α) → OpOutcome α
  | .panic m => .fatalPanic m
  | .ok (.error e) => .recoverable e
  | .ok (.ok a) => .value a

/-- Outcome of a `heap_copy` dispatch: the declared type is a plain
`Value`, so the only failure channel is a panic. -/
def copyOutcome {α : Type} : RtResult α → OpOutcome α
  | .panic m => .fatalPanic m
  | .ok a => .value a

/-- Modelled from the spec: the process-wide registry of dispatch tables,
one per concrete type, keyed by the stable type identifier (§3:
"effectively a singleton registry entry keyed by concrete type"). -/
abbrev TypeRegistry := TypeId → Option AValueImpl

/-- Hash of a type-erased value, routed through the dispatch table its
type tag selects (the wiring of `AValueDyn::get_hash`). -/
def valueHash (reg : TypeRegistry) (v : StarValueRef) : RtResult (Anyhow StarHash) :=
  match reg v.tid with
  | some T => AValueDyn.get_hash ⟨v.payload, AValueVTable.new T⟩
  | none => .panic "unregistered type"

/-- Equality test between two type-erased values, routed through the left
operand's dispatch table (the wiring of `AValueDyn::equals`). -/
def valueEquals (reg : TypeRegistry) (a b : StarValueRef) : RtResult (Anyhow Bool) :=
  match reg a.tid with
  | some T => AValueDyn.equals ⟨a.payload, AValueVTable.new T⟩ b
  | none => .panic "unregistered type"

/-- Modelled from the spec (§8): the contract each registered concrete
implementation keeps — whenever its `equals` answers `true` against
another value, its own hash agrees with that value's hash. -/
def EqHashConsistent (reg : TypeRegistry) : Prop :=
  ∀ tid T, reg tid = some T →
    ∀ p b, T.starlark_value.equals p b = Except.ok true →
      RtResult.ok (T.get_hash p) = valueHash reg b

end StarlarkVTable

namespace FreezeModel

/-!
Modelled from the spec (§4.3): the Freezer driver — `Freezer::freeze` and
the concrete `heap_freeze` hooks live in `values/layout/heap` and
`values/layout/avalue.rs`, which are not under `src/`; only their dispatch
entry (`AValueDyn::heap_freeze`) is.  The model follows the spec's
algorithm: a value is either already frozen (immutable-heap reference) or
mutable; the Freezer keeps an address → frozen-value map consulted first;
a cycle participant is recorded in the map before its own fields are
frozen, with a placeholder cell patched once construction completes.
Mutable cells are a list of reference fields; recursion is bounded by an
explicit fuel, and the termination theorem shows a fuel of one more than
the number of cells always suffices.
-/

/-- A reference held in a heap cell: either into the frozen heap or into
the mutable heap. -/
inductive MVal where
  | frozen (f : Nat)
  | mutRef (a : Nat)
deriving DecidableEq, Repr

/-- Freezer state: the target immutable heap under construction plus the
source-address → frozen-index map. -/
structure FreezerSt where
  fheap : List (List Nat)
  map : List (Option Nat)
deriving DecidableEq, Repr

/-- Freeze every field of a cell in order, threading the Freezer state
through; `frz` freezes a single value. -/
def freezeList (frz : MVal → FreezerSt → Option (Nat × FreezerSt)) :
    List MVal → FreezerSt → Option (List Nat × FreezerSt)
  | [], st => some ([], st)
  | v :: vs, st =>
      match frz v st with
      | none => none
      | some (f, st1) =>
          match freezeList frz vs st1 with
          | none => none
          | some (fs, st2) => some (f :: fs, st2)

/-- Freeze one value reachable from the roots.  An already-frozen value is
returned unchanged; a mutable address is looked up in the map first; an
unvisited address is reserved (placeholder cell + map entry) before its
fields are frozen, then patched.  `none` means the traversal hit an
ill-formed address or ran out of fuel. -/
def freezeVal (mheap : List (List MVal)) : Nat → MVal → FreezerSt → Option (Nat × FreezerSt)
  | _, .frozen f, st => some (f, st)
  | 0, .mutRef a, st =>
      match st.map.get? a with
      | some (some f) => some (f, st)
      | _ => none
  | fuel + 1, .mutRef a, st =>
      match st.map.get? a with
      | none => none
      | some (some f) => some (f, st)
      | some none =>
          match mheap.get? a with
          | none => none
          | some fields =>
              let f := st.fheap.length
              let st1 : FreezerSt := ⟨st.fheap ++ [[]], st.map.set a (some f)⟩
              match freezeList (freezeVal mheap fuel) fields st1 with
              | none => none
              | some (fs, st2) => some (f, ⟨st2.fheap.set f fs, st2.map⟩)

/-- Number of addresses not yet migrated. -/
def countNone : List (Option Nat) → Nat
  | [] => 0
  | none :: xs => countNone xs + 1
  | some _ :: xs => countNone xs

/-- A single reference is well formed when any mutable address it holds is
inside the heap. -/
def wfValB (mheap : List (List MVal)) : MVal → Bool
  | .frozen _ => true
  | .mutRef a => a < mheap.length

/-- A mutable heap is well formed when every field of every cell is. -/
def wfHeapB (mheap : List (List MVal)) : Bool :=
  mheap.all fun cell => cell.all (wfValB mheap)

/-- The Freezer state at the start of a freeze pass: empty target heap,
no address migrated yet. -/
def initSt (mheap : List (List MVal)) : FreezerSt :=
  ⟨[], List.replicate mheap.length none⟩

/-- The spec's §8 scenario: a two-node cycle, cell 0 pointing at cell 1
and cell 1 back at cell 0. -/
def cycleHeap : List (List MVal) := [[.mutRef 1], [.mutRef 0]]

end FreezeModel

namespace ProfileModel

/-!
Embedding of `src/starlark/src/eval/runtime/profile/data.rs`.  The
bytecode profile payloads (`BcProfileData`, `BcPairsProfileData`, in
`profile/bc.rs`) are not under `src/`; all `data.rs` uses of them is that
`gen_csv` is a total method producing a `String`, so they are modelled as
carriers of that output.  `ProfileMode` is used only for its display in
the error context, so it is a string.  The filesystem is an external
collaborator: `fs::write` is passed in as an oracle.
-/

/-- Modelled from the spec: `BcProfileData` (in `profile/bc.rs`, not under
`src/`), reduced to the text its total `gen_csv` method renders. -/
structure BcProfileData where
  csv : String
deriving DecidableEq, Repr

/-- The total `BcProfileData::gen_csv`. -/
def BcProfileData.gen_csv (d : BcProfileData) : String := d.csv

/-- Modelled from the spec: `BcPairsProfileData` (in `profile/bc.rs`, not
under `src/`), reduced to the text its total `gen_csv` method renders. -/
structure BcPairsProfileData where
  csv : String
deriving DecidableEq, Repr

/-- The total `BcPairsProfileData::gen_csv`. -/
def BcPairsProfileData.gen_csv (d : BcPairsProfileData) : String := d.csv

/-- `ProfileDataImpl`. -/
inductive ProfileDataImpl where
  | Bc (d : BcProfileData)
  | BcPairs (d : BcPairsProfileData)
  | Other (s : String)
deriving DecidableEq, Repr

/-- `ProfileData`; `profile_mode` keeps only the display text used in the
error context. -/
structure ProfileData where
  profile_mode : String
  profile : ProfileDataImpl
deriving DecidableEq, Repr

/-- `ProfileData::gen`. -/
def ProfileData.gen (d : ProfileData) : Except String String :=
  match d.profile with
  | .Other profile => .ok profile
  | .Bc bc => .ok bc.gen_csv
  | .BcPairs bc_pairs => .ok bc_pairs.gen_csv

/-- `ProfileData::write`, with `fs::write` supplied as an oracle
`fsWrite : path → contents → result`.  A filesystem failure is wrapped in
the same context message the source formats. -/
def ProfileData.write (fsWrite : String → String → Except String Unit)
    (d : ProfileData) (path : String) : Except String Unit :=
  match d.gen with
  | .error e => .error e
  | .ok contents =>
      match fsWrite path contents with
      | .error e =>
          .error ("write profile `" ++ d.profile_mode ++ "` data to `" ++
            path ++ "`: " ++ e)
      | .ok _ => .ok ()

end ProfileModel

namespace CallModel

/-!
Embedding of `ArgsCompiledValue::one_pos` from
`src/starlark/src/eval/fragment/call.rs`.  `Spanned<ExprCompiledValue>` is
modelled as an opaque record (span plus an opaque expression token):
`one_pos` never inspects the expression.  `names` entries model
`(Symbol, FrozenStringValue)` pairs.
-/

/-- A `Spanned<ExprCompiledValue>`: span bounds plus an opaque compiled
expression. -/
structure SpannedExpr where
  span : Nat × Nat
  node : Nat
deriving DecidableEq, Repr

/-- `ArgsCompiledValue`: the values of positional and named arguments in
`pos_named` (named ones last), the names in `names`, and the optional
`*args` / `**kwargs` expressions. -/
structure ArgsCompiledValue where
  pos_named : List SpannedExpr
  names : List (Nat × String)
  args : Option SpannedExpr
  kwargs : Option SpannedExpr
deriving DecidableEq, Repr

/-- `ArgsCompiledValue::one_pos`: the compiled argument list is exactly one
positional argument. -/
def ArgsCompiledValue.one_pos (a : ArgsCompiledValue) : Option SpannedExpr :=
  match a.pos_named, a.names, a.args, a.kwargs with
  | [pos], [], none, none => some pos
  | _, _, _, _ => none

end CallModel

namespace StarlarkVTable

/-- A concrete `StarlarkValue` implementation used to instantiate the
generic theorems: an immutable value equal to every value tagged with its
own type id, hashing to a constant. -/
def exampleSV : StarlarkValueImpl where
  TYPE := "example"
  staticTypeId := 1
  get_attr := fun _ _ _ => none
  has_attr := fun _ _ _ => false
  set_attr := fun _ _ _ => .error "immutable value"
  atOp := fun _ _ _ => .error "unsupported"
  set_at := fun _ _ _ => .error "immutable value"
  is_in := fun _ _ => .ok false
  iterate := fun _ _ => .error "not iterable"
  to_bool := fun _ => true
  to_int := fun _ => .error "not an int"
  length := fun _ => .error "no length"
  add := fun _ _ _ => none
  mul := fun _ _ _ => .error "unsupported"
  equals := fun _ b => .ok (decide (b.tid = 1))
  compare := fun _ _ => .error "not comparable"
  write_hash := fun _ hasher => .ok hasher
  invoke := fun _ _ _ _ => .error "not callable"
  matches_type := fun _ t => t == "example"
  displayStr := fun _ => "example"
  debugStr := fun _ => "example"
  serializeStr := fun _ => "example"
  allocativeUnique := fun _ => 0

/-- A second concrete implementation with a distinct type id, for the
downcast-mismatch instance. -/
def exampleSV2 : StarlarkValueImpl :=
  { exampleSV with TYPE := "example2", staticTypeId := 2 }

/-- A concrete `AValue` implementation over `exampleSV`. -/
def exampleImpl : AValueImpl where
  starlark_value := exampleSV
  IS_STR := false
  extra_len := fun p => p.length
  memory_size_for_extra_len := fun n => 8 * (n + 1)
  msize_aligned := fun n => by simp [AValueHeader.ALIGN, Nat.mul_mod_right]
  get_hash := fun _ => .ok 7
  heap_freeze := fun p _ => .ok ⟨1, p⟩
  heap_copy := fun p _ => ⟨1, p⟩

/-- A concrete implementation whose freeze hook reports a recoverable
error, exhibiting the failure channel `heap_freeze` has and `heap_copy`
lacks. -/
def failingFreezeImpl : AValueImpl :=
  { exampleImpl with heap_freeze := fun _ _ => .error "freeze failed" }

/-- A registry holding the single example type. -/
def exampleReg : TypeRegistry :=
  fun t => if t = 1 then some exampleImpl else none

/-- The example registry keeps the equality/hash consistency contract. -/
theorem exampleReg_consistent : EqHashConsistent exampleReg := by
  intro tid T hT p b heq
  have htid : tid = 1 := by
    by_contra hne
    simp [exampleReg, hne] at hT
  subst htid
  have hTe : T = exampleImpl := by
    have : some exampleImpl = some T := by simpa [exampleReg] using hT
    exact (Option.some.inj this).symm
  subst hTe
  have hb : b.tid = 1 := by
    have : decide (b.tid = 1) = true := by
      simpa [exampleImpl, exampleSV] using heq
    exact of_decide_eq_true this
  simp [valueHash, exampleReg, hb, AValueDyn.get_hash, AValueVTable.new,
    exampleImpl]

end StarlarkVTable

section Claims

open StarlarkVTable
open FreezeModel
open ProfileModel
open CallModel

/-- Claim C1, counterexample to the claim as stated: the display accessor
is a pure-introspection operation (spec §4.2 class 1), yet routing it
through a tombstoned handle succeeds instead of failing fatally — so it is
not true that "only the destructor and the memory-size query succeed". -/
theorem c1_tombstone_counterexample :
    RtResult.isPanic
      (AValueDyn.as_display ⟨BlackHole.of 16, AValueVTable.new_black_hole⟩) = false :=
  rfl

/-- Claim C1 (amended): for every handle whose DispatchTable is the
Tombstone (BlackHole) table, every value operation and the `get_hash`,
`heap_freeze` and `heap_copy` hooks fail fatally (panic), not as
recoverable value-operation errors; the destructor and the memory-size
query succeed, and on a migrated cell the memory-size query returns the
size recorded at tombstone-creation time, which equals the migrated cell's
original payload size.  (Unlike the claim as stated, the passive
introspection accessors — type name, is-str, display/debug/serialize/
allocative — also succeed.) -/
theorem c1_tombstone_dispatch :
    (∀ (p : RawPayload) (fz : FreezerTok),
        AValueDyn.heap_freeze ⟨p, AValueVTable.new_black_hole⟩ fz = .panic "BlackHole") ∧
    (∀ (p : RawPayload) (tr : TracerTok),
        AValueDyn.heap_copy ⟨p, AValueVTable.new_black_hole⟩ tr = .panic "BlackHole") ∧
    (∀ p : RawPayload,
        AValueDyn.get_hash ⟨p, AValueVTable.new_black_hole⟩ = .panic "BlackHole") ∧
    (∀ (p : RawPayload) (n : String) (hp : HeapTok),
        AValueDyn.get_attr ⟨p, AValueVTable.new_black_hole⟩ n hp = .panic "BlackHole") ∧
    (∀ (p : RawPayload) (n : String) (hp : HeapTok),
        AValueDyn.has_attr ⟨p, AValueVTable.new_black_hole⟩ n hp = .panic "BlackHole") ∧
    (∀ (p : RawPayload) (n : String) (v : StarValueRef),
        AValueDyn.set_attr ⟨p, AValueVTable.new_black_hole⟩ n v = .panic "BlackHole") ∧
    (∀ (p : RawPayload) (i : StarValueRef) (hp : HeapTok),
        AValueDyn.atOp ⟨p, AValueVTable.new_black_hole⟩ i hp = .panic "BlackHole") ∧
    (∀ (p : RawPayload) (i v : StarValueRef),
        AValueDyn.set_at ⟨p, AValueVTable.new_black_hole⟩ i v = .panic "BlackHole") ∧
    (∀ (p : RawPayload) (c : StarValueRef),
        AValueDyn.is_in ⟨p, AValueVTable.new_black_hole⟩ c = .panic "BlackHole") ∧
    (∀ (p : RawPayload) (hp : HeapTok),
        AValueDyn.iterate ⟨p, AValueVTable.new_black_hole⟩ hp = .panic "BlackHole") ∧
    (∀ p : RawPayload,
        AValueDyn.to_bool ⟨p, AValueVTable.new_black_hole⟩ = .panic "BlackHole") ∧
    (∀ p : RawPayload,
        AValueDyn.to_int ⟨p, AValueVTable.new_black_hole⟩ = .panic "BlackHole") ∧
    (∀ p : RawPayload,
        AValueDyn.length ⟨p, AValueVTable.new_black_hole⟩ = .panic "BlackHole") ∧
    (∀ (p : RawPayload) (v : StarValueRef) (hp : HeapTok),
        AValueDyn.add ⟨p, AValueVTable.new_black_hole⟩ v hp = .panic "BlackHole") ∧
    (∀ (p : RawPayload) (v : StarValueRef) (hp : HeapTok),
        AValueDyn.mul ⟨p, AValueVTable.new_black_hole⟩ v hp = .panic "BlackHole") ∧
    (∀ (p : RawPayload) (v : StarValueRef),
        AValueDyn.equals ⟨p, AValueVTable.new_black_hole⟩ v = .panic "BlackHole") ∧
    (∀ (p : RawPayload) (v : StarValueRef),
        AValueDyn.compare ⟨p, AValueVTable.new_black_hole⟩ v = .panic "BlackHole") ∧
    (∀ (p : RawPayload) (hasher : Nat),
        AValueDyn.write_hash ⟨p, AValueVTable.new_black_hole⟩ hasher = .panic "BlackHole") ∧
    (∀ (p : RawPayload) (me : StarValueRef) (a : ArgsTok) (e : EvalTok),
        AValueDyn.invoke ⟨p, AValueVTable.new_black_hole⟩ me a e = .panic "BlackHole") ∧
    (∀ (p : RawPayload) (t : String),
        AValueDyn.matches_type ⟨p, AValueVTable.new_black_hole⟩ t = .panic "BlackHole") ∧
    (∀ p : RawPayload,
        AValueDyn.drop_in_place ⟨p, AValueVTable.new_black_hole⟩ = .ok ()) ∧
    (∀ (T : AValueImpl) (p : RawPayload),
        AValueDyn.memory_size (migrate T p) = .ok (cellPayloadSize T p)) := by
  and_intros
  all_goals intros
  all_goals
    first
      | rfl
      | (rename_i T p
         simp [AValueDyn.memory_size, migrate, AValueVTable.new_black_hole,
           BlackHole.of, cellPayloadSize, T.msize_aligned])

/-- Claim C2: the DispatchTable constructed by `AValueVTable::new::<T>`
carries exactly `T`'s static type identifier, and `downcast_ref::<S>`
returns the payload under `S`'s typed view exactly when the handle's
identifier matches `S`'s, `none` otherwise. -/
theorem c2_downcast :
    (∀ T : AValueImpl,
        (AValueVTable.new T).static_type_of_value = T.starlark_value.staticTypeId) ∧
    (∀ (h : AValueDyn) (S : StarlarkValueImpl),
        h.static_type_of_value = S.staticTypeId → h.downcast_ref S = some h.value) ∧
    (∀ (h : AValueDyn) (S : StarlarkValueImpl),
        h.static_type_of_value ≠ S.staticTypeId → h.downcast_ref S = none) :=
  ⟨fun _ => rfl,
   fun h S hEq => by simp [AValueDyn.downcast_ref, hEq],
   fun h S hNe => by simp [AValueDyn.downcast_ref, hNe]⟩

/-- Claim C2, witness: a handle of the example type downcasts to the
example type's view (yielding its payload) and not to a type with a
different identifier. -/
theorem c2_downcast_witness :
    (AValueDyn.downcast_ref ⟨[5], AValueVTable.new exampleImpl⟩ exampleSV = some [5]) ∧
    (AValueDyn.downcast_ref ⟨[5], AValueVTable.new exampleImpl⟩ exampleSV2 = none) :=
  ⟨c2_downcast.2.1 _ exampleSV rfl,
   c2_downcast.2.2 _ exampleSV2 (by decide)⟩

/-- Claim C3: freezing a value that already points into the immutable heap
is the identity — the same frozen value comes back, the Freezer state is
untouched, and the result holds for every mutable heap and every fuel
(even zero), i.e. the mutable-heap freeze logic is never re-entered. -/
theorem c3_freeze_frozen_identity :
    ∀ (mheap : List (List MVal)) (fuel : Nat) (f : Nat) (st : FreezerSt),
      freezeVal mheap fuel (.frozen f) st = some (f, st) := by
  intro mheap fuel f st
  cases fuel <;> rfl

/-- Claim C5: for every handle the `heap_copy` dispatch has no
recoverable-error channel — for tables built by `new::<T>` it yields a
copied value, for the Tombstone table it fails fatally — whereas
`heap_freeze` returns a result that can carry a recoverable, propagating
failure. -/
theorem c5_copy_infallible :
    (∀ (T : AValueImpl) (p : RawPayload) (tr : TracerTok),
        (copyOutcome (AValueDyn.heap_copy ⟨p, AValueVTable.new T⟩ tr)).isRecoverable = false) ∧
    (∀ (p : RawPayload) (tr : TracerTok),
        copyOutcome (AValueDyn.heap_copy ⟨p, AValueVTable.new_black_hole⟩ tr) =
          .fatalPanic "BlackHole") ∧
    (∃ (T : AValueImpl) (p : RawPayload) (fz : FreezerTok) (err : String),
        freezeOutcome (AValueDyn.heap_freeze ⟨p, AValueVTable.new T⟩ fz) =
          .recoverable err) :=
  ⟨fun _ _ _ => rfl, fun _ _ => rfl,
   ⟨failingFreezeImpl, [], 0, "freeze failed", rfl⟩⟩

/-- Claim C6: for every handle of every registered type, `total_memory`
returns the `AValueHeader` size plus `memory_size` plus the externally
accounted unique-allocation size, and is at least the header size. -/
theorem c6_total_memory :
    ∀ (T : AValueImpl) (p : RawPayload), ∃ n,
      AValueDyn.total_memory ⟨p, AValueVTable.new T⟩ = .ok n ∧
      n = AValueHeader.size + cellPayloadSize T p +
          size_of_unique_allocated_data ⟨T.starlark_value.allocativeUnique p⟩ ∧
      AValueHeader.size ≤ n := by
  intro T p
  refine ⟨_, ?_, rfl, by omega⟩
  simp [AValueDyn.total_memory, AValueDyn.memory_size, AValueDyn.as_allocative,
    AValueVTable.new, cellPayloadSize, T.msize_aligned]

/-- Claim C8: for every heap cell of every registered type, the reported
payload size is a multiple of `AValueHeader::ALIGN` — the debug assertion
in `AValueDyn::memory_size` never fires — and the total cell size (header
plus payload) is a multiple of the alignment unit as well. -/
theorem c8_memory_size_aligned :
    ∀ (T : AValueImpl) (p : RawPayload), ∃ sz,
      AValueDyn.memory_size ⟨p, AValueVTable.new T⟩ = .ok sz ∧
      sz % AValueHeader.ALIGN = 0 ∧
      (AValueHeader.size + sz) % AValueHeader.ALIGN = 0 := by
  intro T p
  refine ⟨cellPayloadSize T p, ?_, T.msize_aligned _, ?_⟩
  · simp [AValueDyn.memory_size, AValueVTable.new, cellPayloadSize,
      T.msize_aligned]
  · have h := T.msize_aligned (T.extra_len p)
    simp only [AValueHeader.ALIGN, AValueHeader.size, cellPayloadSize] at *
    omega

end Claims

section FreezeTermination

open FreezeModel

/-- Setting a not-yet-migrated address to a frozen index lowers the number
of unmigrated addresses by exactly one. -/
theorem countNone_set (l : List (Option Nat)) (a f : Nat)
    (h : l.get? a = some none) :
    countNone (l.set a (some f)) + 1 = countNone l := by
  induction l generalizing a with
  | nil => simp at h
  | cons x xs ih =>
      cases a with
      | zero =>
          rw [List.get?_cons_zero] at h
          obtain rfl : x = none := Option.some.inj h
          show countNone (some f :: xs) + 1 = countNone (none :: xs)
          simp only [countNone]
      | succ n =>
          rw [List.get?_cons_succ] at h
          have hx := ih n h
          cases x with
          | none =>
              show countNone (none :: xs.set n (some f)) + 1 =
                countNone (none :: xs)
              simp only [countNone]
              omega
          | some y =>
              show countNone (some y :: xs.set n (some f)) + 1 =
                countNone (some y :: xs)
              simp only [countNone]
              omega

/-- At the start of a pass no address has been migrated. -/
theorem countNone_replicate (n : Nat) :
    countNone (List.replicate n none) = n := by
  induction n with
  | zero => rfl
  | succ k ih => simpa [List.replicate, countNone] using ih

/-- Freezing a list of well-formed fields succeeds and preserves the
Freezer-state invariants, provided freezing one value does. -/
theorem freezeList_total (mheap : List (List MVal)) (fuel : Nat)
    (IH : ∀ (v : MVal) (st : FreezerSt), wfValB mheap v = true →
        st.map.length = mheap.length → countNone st.map < fuel →
        ∃ r st', freezeVal mheap fuel v st = some (r, st') ∧
          st'.map.length = mheap.length ∧ countNone st'.map ≤ countNone st.map) :
    ∀ (vs : List MVal) (st : FreezerSt), (∀ v ∈ vs, wfValB mheap v = true) →
      st.map.length = mheap.length → countNone st.map < fuel →
      ∃ rs st', freezeList (freezeVal mheap fuel) vs st = some (rs, st') ∧
        st'.map.length = mheap.length ∧ countNone st'.map ≤ countNone st.map := by
  intro vs
  induction vs with
  | nil =>
      intro st _ hlen hcn
      exact ⟨[], st, rfl, hlen, Nat.le_refl _⟩
  | cons v vs ih =>
      intro st hwf hlen hcn
      obtain ⟨r, st1, h1, hlen1, hcn1⟩ :=
        IH v st (hwf v (by simp)) hlen hcn
      obtain ⟨rs, st2, h2, hlen2, hcn2⟩ :=
        ih st1 (fun w hw => hwf w (by simp [hw])) hlen1
          (Nat.lt_of_le_of_lt hcn1 hcn)
      exact ⟨r :: rs, st2, by simp [freezeList, h1, h2], hlen2,
        Nat.le_trans hcn2 hcn1⟩

/-- Freezing any well-formed value over a well-formed mutable heap
succeeds whenever the fuel exceeds the number of not-yet-migrated
addresses, and never increases that number: the traversal terminates on
arbitrary object graphs, cycles included. -/
theorem freezeVal_total (mheap : List (List MVal))
    (hheap : wfHeapB mheap = true) :
    ∀ (fuel : Nat) (v : MVal) (st : FreezerSt), wfValB mheap v = true →
      st.map.length = mheap.length → countNone st.map < fuel →
      ∃ r st', freezeVal mheap fuel v st = some (r, st') ∧
        st'.map.length = mheap.length ∧ countNone st'.map ≤ countNone st.map := by
  intro fuel
  induction fuel with
  | zero =>
      intro v st _ _ hcn
      exact absurd hcn (Nat.not_lt_zero _)
  | succ n ih =>
      intro v st hv hlen hcn
      cases v with
      | frozen f => exact ⟨f, st, rfl, hlen, Nat.le_refl _⟩
      | mutRef a =>
          have ha : a < mheap.length := by simpa [wfValB] using hv
          have ha' : a < st.map.length := by omega
          have hmg : st.map.get? a = some (st.map.get ⟨a, ha'⟩) :=
            List.get?_eq_get ha'
          cases ho : st.map.get ⟨a, ha'⟩ with
          | some f =>
              rw [ho] at hmg
              refine ⟨f, st, ?_, hlen, Nat.le_refl _⟩
              show freezeVal mheap (n + 1) (.mutRef a) st = some (f, st)
              simp only [freezeVal]
              rw [hmg]
          | none =>
              rw [ho] at hmg
              have hcell : mheap.get? a = some (mheap.get ⟨a, ha⟩) :=
                List.get?_eq_get ha
              have hfieldswf : ∀ w ∈ mheap.get ⟨a, ha⟩, wfValB mheap w = true := by
                intro w hw
                have hmem : mheap.get ⟨a, ha⟩ ∈ mheap := List.get?_mem hcell
                have hcellall := (List.all_eq_true.1 hheap) _ hmem
                exact (List.all_eq_true.1 hcellall) w hw
              have hlen1 :
                  (FreezerSt.mk (st.fheap ++ [[]])
                    (st.map.set a (some st.fheap.length))).map.length =
                    mheap.length := by
                simp [List.length_set, hlen]
              have hcndrop :
                  countNone (st.map.set a (some st.fheap.length)) + 1 =
                    countNone st.map :=
                countNone_set st.map a st.fheap.length hmg
              have hcn1 :
                  countNone (FreezerSt.mk (st.fheap ++ [[]])
                    (st.map.set a (some st.fheap.length))).map < n := by
                show countNone (st.map.set a (some st.fheap.length)) < n
                omega
              obtain ⟨rs, st2, h2, hlen2, hcn2⟩ :=
                freezeList_total mheap n ih (mheap.get ⟨a, ha⟩)
                  ⟨st.fheap ++ [[]], st.map.set a (some st.fheap.length)⟩
                  hfieldswf hlen1 hcn1
              refine ⟨st.fheap.length, ⟨st2.fheap.set st.fheap.length rs, st2.map⟩,
                ?_, hlen2, ?_⟩
              · show freezeVal mheap (n + 1) (.mutRef a) st =
                  some (st.fheap.length, ⟨st2.fheap.set st.fheap.length rs, st2.map⟩)
                simp only [freezeVal]
                rw [hmg, hcell]
                simp only [h2]
              · show countNone st2.map ≤ countNone st.map
                have hcn2' : countNone st2.map ≤
                    countNone (st.map.set a (some st.fheap.length)) := hcn2
                omega

end FreezeTermination

section ClaimsTwo

open StarlarkVTable
open FreezeModel
open ProfileModel
open CallModel

/-- Claim C4: a freeze pass over any well-formed reachable object graph —
self-referential and mutually-referential graphs included — terminates (a
fuel of one more than the number of heap cells always suffices, so the
recursion is bounded); and on the two-node cycle rooted at cell 0 the pass
succeeds with the frozen cells referencing each other exactly as the
mutable ones did. -/
theorem c4_freeze_terminates_on_cycles :
    (∀ (mheap : List (List MVal)) (v : MVal),
        wfHeapB mheap = true → wfValB mheap v = true →
        (freezeVal mheap (mheap.length + 1) v (initSt mheap)).isSome = true) ∧
    (freezeVal cycleHeap 3 (.mutRef 0) (initSt cycleHeap) =
        some (0, ⟨[[1], [0]], [some 0, some 1]⟩)) := by
  constructor
  · intro mheap v hheap hv
    obtain ⟨r, st', h, -, -⟩ :=
      freezeVal_total mheap hheap (mheap.length + 1) v (initSt mheap) hv
        (by simp [initSt])
        (by simp [initSt, countNone_replicate])
    simp [h]
  · decide

/-- Claim C4, witness: the general termination statement applied to the
two-node cycle heap. -/
theorem c4_freeze_witness :
    wfHeapB cycleHeap = true ∧
    (freezeVal cycleHeap (cycleHeap.length + 1) (.mutRef 0)
        (initSt cycleHeap)).isSome = true :=
  ⟨by decide,
   c4_freeze_terminates_on_cycles.1 cycleHeap (.mutRef 0) (by decide) (by decide)⟩

/-- Claim C7: whenever the registered implementations keep the spec's
equality/hash contract, the dispatch surface is consistent — if `equals`
through a handle answers `true`, the two handles hash identically. -/
theorem c7_equals_hash_consistent :
    ∀ reg : TypeRegistry, EqHashConsistent reg →
      ∀ a b : StarValueRef, valueEquals reg a b = .ok (.ok true) →
        valueHash reg a = valueHash reg b := by
  intro reg hcons a b heq
  unfold valueEquals at heq
  cases hreg : reg a.tid with
  | none => rw [hreg] at heq; exact absurd heq (by simp)
  | some T =>
      rw [hreg] at heq
      have heq' : T.starlark_value.equals a.payload b = .ok true := by
        have : RtResult.ok (T.starlark_value.equals a.payload b) =
            RtResult.ok (Except.ok true) := by
          simpa [AValueDyn.equals, AValueVTable.new, StarlarkValueVTableGet]
            using heq
        injection this
  -- hash of `a` resolves through `T`'s table entry
      have hres := hcons a.tid T hreg a.payload b heq'
      have hva : valueHash reg a = RtResult.ok (T.get_hash a.payload) := by
        simp [valueHash, hreg, AValueDyn.get_hash, AValueVTable.new]
      rw [hva, hres]

/-- Claim C7, witness: two distinct example values that compare equal
through the dispatch surface hash identically. -/
theorem c7_equals_hash_witness :
    valueHash exampleReg ⟨1, [3]⟩ = valueHash exampleReg ⟨1, [4]⟩ :=
  c7_equals_hash_consistent exampleReg exampleReg_consistent
    ⟨1, [3]⟩ ⟨1, [4]⟩ rfl

/-- Claim C9: `ProfileData::gen` never fails — each of the three
`ProfileDataImpl` variants produces its output string — so a failure of
`ProfileData::write` can only come from the filesystem write itself, whose
error is then wrapped in the write context message. -/
theorem c9_profile_gen_total :
    (∀ d : ProfileData, ∃ s, d.gen = .ok s) ∧
    (∀ (fsWrite : String → String → Except String Unit) (d : ProfileData)
        (path e : String),
        ProfileData.write fsWrite d path = .error e →
        ∃ s e0, d.gen = .ok s ∧ fsWrite path s = .error e0 ∧
          e = "write profile `" ++ d.profile_mode ++ "` data to `" ++
            path ++ "`: " ++ e0) := by
  constructor
  · intro d
    rcases d with ⟨mode, impl⟩
    cases impl <;> exact ⟨_, rfl⟩
  · intro fsWrite d path e hw
    rcases d with ⟨mode, impl⟩
    have hgen : ∃ s, (ProfileData.mk mode impl).gen = .ok s := by
      cases impl <;> exact ⟨_, rfl⟩
    obtain ⟨s, hs⟩ := hgen
    refine ⟨s, ?_⟩
    simp only [ProfileData.write, hs] at hw
    rcases hfs : fsWrite path s with e0 | u
    · rw [hfs] at hw
      refine ⟨e0, hs, rfl, ?_⟩
      injection hw with h
      exact h.symm
    · rw [hfs] at hw
      exact absurd hw (by simp)

/-- Claim C9, witness: a concrete profile written through an
always-failing filesystem fails with the wrapped filesystem error. -/
theorem c9_profile_witness :
    ∃ s e0, (ProfileData.mk "bytecode" (.Other "x")).gen = .ok s ∧
      (fun (_ _ : String) => (Except.error "io" : Except String Unit))
        "out.csv" s = .error e0 ∧
      "write profile `" ++ "bytecode" ++ "` data to `" ++ "out.csv" ++
          "`: " ++ "io" =
        "write profile `" ++ (ProfileData.mk "bytecode" (.Other "x")).profile_mode ++
          "` data to `" ++ "out.csv" ++ "`: " ++ e0 :=
  c9_profile_gen_total.2
    (fun _ _ => .error "io") ⟨"bytecode", .Other "x"⟩ "out.csv"
    ("write profile `" ++ "bytecode" ++ "` data to `" ++ "out.csv" ++
      "`: " ++ "io") rfl

/-- Claim C10: `ArgsCompiledValue::one_pos` answers `some p` exactly when
the compiled argument list is a single positional expression `p` — one
entry in `pos_named`, no names, no `*args`, no `**kwargs` — and `none` for
every other shape. -/
theorem c10_one_pos :
    ∀ (a : ArgsCompiledValue) (p : SpannedExpr),
      a.one_pos = some p ↔
        a.pos_named = [p] ∧ a.names = [] ∧ a.args = none ∧ a.kwargs = none := by
  intro a p
  rcases a with ⟨pn, nm, ar, kw⟩
  cases pn with
  | nil => simp [ArgsCompiledValue.one_pos]
  | cons x xs =>
      cases xs with
      | cons y ys => simp [ArgsCompiledValue.one_pos]
      | nil =>
          cases nm with
          | cons nhd ntl => simp [ArgsCompiledValue.one_pos]
          | nil =>
              cases ar with
              | some av => simp [ArgsCompiledValue.one_pos]
              | none =>
                  cases kw with
                  | some kv => simp [ArgsCompiledValue.one_pos]
                  | none => simp [ArgsCompiledValue.one_pos, eq_comm]

/-- Claim C10, witness: a single positional argument is recognised. -/
theorem c10_one_pos_witness :
    (ArgsCompiledValue.mk [⟨(0, 1), 7⟩] [] none none).one_pos =
      some ⟨(0, 1), 7⟩ :=
  (c10_one_pos (ArgsCompiledValue.mk [⟨(0, 1), 7⟩] [] none none)
      ⟨(0, 1), 7⟩).2 ⟨rfl, rfl, rfl, rfl⟩

end ClaimsTwo
